import Mathlib

/-!
# Verification of the CLI calculator's calculation engine and history store

Shallow embedding of the Go sources of `cli-calculator`:
`internal/constants`, `internal/errors`, `internal/calculator/calculator.go`
and `internal/history/history.go`.

Modelling conventions:
* Go `float64` is embedded as `GoFloat`: either NaN, a signed infinity, or a
  finite value carried as an exact rational.  IEEE-754 rounding is not
  modelled; finite addition, subtraction and multiplication are exact (the
  source performs no finiteness checks after them and no claim depends on
  rounding).  Division models the overflow-to-infinity outcome explicitly,
  because the source branches on `math.IsInf` of the quotient.
* `math.Sqrt` and `math.Pow` are transcendental and have no exact rational
  counterpart; they are embedded as total placeholder functions whose values
  are never relied upon — only the control flow around them is.
* Go `error` values are embedded as an explicit error type; the sentinel
  errors of `internal/errors` become the `Sentinel` enumeration.
* `time.Time` is embedded as a natural number, with `0` playing the role of
  the zero value (`IsZero`).
-/

namespace CliCalc

/-! ## internal/constants -/

/-- `constants.MaxNumberInputValue = 1e15`. -/
def MaxNumberInputValue : ℚ := 10 ^ 15

/-- `constants.MinNumberInputValue = -1e15`. -/
def MinNumberInputValue : ℚ := -(10 ^ 15)

/-- The largest finite `float64` value, `(2 - 2^-52) * 2^1023`.  A quotient
whose exact value exceeds this bound is an IEEE overflow (to infinity). -/
def maxFloat64 : ℚ := 2 ^ 1024 - 2 ^ 971

/-- Go `type Operation uint8`.  The named constants below are the `iota`
values from `internal/constants`; every other numeral is an unhandled tag
(`uint8` admits values `9`–`255`, all of which behave like `OpUnknown` in the
source's `switch` statements). -/
abbrev Operation := Nat

def OpUnknown : Operation := 0
def OpAddition : Operation := 1
def OpSubtraction : Operation := 2
def OpMultiplication : Operation := 3
def OpDivision : Operation := 4
def OpPower : Operation := 5
def OpSquareRoot : Operation := 6
def OpModulo : Operation := 7
def OpFactorial : Operation := 8

/-- `Operation.String()` from `internal/constants`. -/
def operationString (o : Operation) : String :=
  if o = OpAddition then "Addition"
  else if o = OpSubtraction then "Subtraction"
  else if o = OpMultiplication then "Multiplication"
  else if o = OpDivision then "Division"
  else if o = OpPower then "Power"
  else if o = OpSquareRoot then "Square Root"
  else if o = OpModulo then "Modulo"
  else if o = OpFactorial then "Factorial"
  else "Unknown"

/-! ## The float64 model -/

/-- A Go `float64` value: NaN, a signed infinity (`pos = true` is `+Inf`),
or a finite value represented exactly as a rational. -/
inductive GoFloat where
  | nan : GoFloat
  | inf : Bool → GoFloat
  | finite : ℚ → GoFloat
  deriving DecidableEq

/-- `math.IsNaN`. -/
def GoFloat.isNaN : GoFloat → Bool
  | .nan => true
  | _ => false

/-- `math.IsInf(v, 0)`: infinity of either sign. -/
def GoFloat.isInf : GoFloat → Bool
  | .inf _ => true
  | _ => false

/-- Go `==` on float64: NaN compares unequal to everything (itself
included). -/
def GoFloat.feq : GoFloat → GoFloat → Bool
  | .nan, _ => false
  | _, .nan => false
  | .inf b, .inf c => b == c
  | .inf _, .finite _ => false
  | .finite _, .inf _ => false
  | .finite q, .finite r => decide (q = r)

/-- Go `<` on float64: any comparison involving NaN is false. -/
def GoFloat.flt : GoFloat → GoFloat → Bool
  | .nan, _ => false
  | _, .nan => false
  | .inf b, .inf c => !b && c
  | .inf b, .finite _ => !b
  | .finite _, .inf c => c
  | .finite q, .finite r => decide (q < r)

/-- Go `>` on float64. -/
def GoFloat.fgt (a b : GoFloat) : Bool := GoFloat.flt b a

/-- Go `+` on float64 (finite case exact; see module comment). -/
def GoFloat.fadd : GoFloat → GoFloat → GoFloat
  | .nan, _ => .nan
  | _, .nan => .nan
  | .inf b, .inf c => if b == c then .inf b else .nan
  | .inf b, .finite _ => .inf b
  | .finite _, .inf c => .inf c
  | .finite q, .finite r => .finite (q + r)

/-- Go `-` on float64 (finite case exact; see module comment). -/
def GoFloat.fsub : GoFloat → GoFloat → GoFloat
  | .nan, _ => .nan
  | _, .nan => .nan
  | .inf b, .inf c => if b == c then .nan else .inf b
  | .inf b, .finite _ => .inf b
  | .finite _, .inf c => .inf (!c)
  | .finite q, .finite r => .finite (q - r)

/-- Go `*` on float64 (finite case exact; see module comment). -/
def GoFloat.fmul : GoFloat → GoFloat → GoFloat
  | .nan, _ => .nan
  | _, .nan => .nan
  | .inf b, .inf c => .inf (b == c)
  | .inf b, .finite q => if q = 0 then .nan else .inf (b == decide (0 < q))
  | .finite q, .inf b => if q = 0 then .nan else .inf (b == decide (0 < q))
  | .finite q, .finite r => .finite (q * r)

/-- Go `/` on float64.  The finite/finite case is exact rational division,
except that a quotient beyond the largest finite float64 overflows to the
correspondingly signed infinity — this is the case `divide` detects with
`math.IsInf`.  (Signed zero is not modelled; the `r = 0` branch is
unreachable in `divide`, which tests `b == 0` first.) -/
def GoFloat.fdiv : GoFloat → GoFloat → GoFloat
  | .nan, _ => .nan
  | _, .nan => .nan
  | .inf _, .inf _ => .nan
  | .inf b, .finite q => .inf (b == decide (0 ≤ q))
  | .finite _, .inf _ => .finite 0
  | .finite q, .finite r =>
    if r = 0 then (if q = 0 then .nan else .inf (decide (0 < q)))
    else if maxFloat64 < |q / r| then .inf (decide (0 < q / r))
    else .finite (q / r)

/-- `math.Floor`. -/
def GoFloat.ffloor : GoFloat → GoFloat
  | .nan => .nan
  | .inf b => .inf b
  | .finite q => .finite (⌊q⌋ : ℚ)

/-- Truncation toward zero, the integer part used by `math.Mod`. -/
def ratTrunc (q : ℚ) : ℤ := if 0 ≤ q then ⌊q⌋ else ⌈q⌉

/-- `math.Mod`: remainder with the sign of the dividend,
`a - b * trunc(a / b)`.  Exact in the finite/finite case; the `b = 0` branch
is unreachable in `modulo`, which tests `b == 0` first. -/
def GoFloat.fmod : GoFloat → GoFloat → GoFloat
  | .finite a, .finite b =>
    if b = 0 then .nan else .finite (a - b * (ratTrunc (a / b) : ℚ))
  | _, _ => .nan

/-- `math.Sqrt` is transcendental in general; embedded via the integer
square roots of numerator and denominator (exact on perfect squares).  No
claim depends on this value, only on the sign check in `squareRoot`. -/
def ratSqrt (q : ℚ) : ℚ := (Nat.sqrt q.num.toNat : ℚ) / (Nat.sqrt q.den : ℚ)

/-- `math.Sqrt` on the float64 model. -/
def GoFloat.fsqrt : GoFloat → GoFloat
  | .nan => .nan
  | .inf true => .inf true
  | .inf false => .nan
  | .finite q => if q < 0 then .nan else .finite (ratSqrt q)

/-- `math.Pow` is transcendental in general; embedded exactly for integer
exponents and as `0` otherwise.  No claim depends on this value. -/
def GoFloat.fpow : GoFloat → GoFloat → GoFloat
  | .finite a, .finite b => if b.den = 1 then .finite (a ^ b.num) else .finite 0
  | _, _ => .nan

/-! ## internal/errors -/

/-- `errors.ValidationError` (field, value, message).  Go's `fmt` rendering
of numbers inside messages is abstracted by Lean's `toString`. -/
structure ValidationError where
  field : String
  value : String
  message : String
  deriving DecidableEq

/-- The sentinel errors of `internal/errors` that the calculation engine
wraps as causes. -/
inductive Sentinel where
  | invalidInput
  | divisionByZero
  | negativeSquareRoot
  | invalidOperation
  | outOfRange
  deriving DecidableEq

/-- `errors.CalculationError` (operation, operands, reason, optional wrapped
cause). -/
structure CalculationError where
  operation : String
  operands : List GoFloat
  reason : String
  err : Option Sentinel
  deriving DecidableEq

/-- A non-nil `error` returned by `Calculate`: either a `*ValidationError`
or a `*CalculationError`. -/
inductive CalcError where
  | validation : ValidationError → CalcError
  | calculation : CalculationError → CalcError
  deriving DecidableEq

/-- `errors.NewValidationError(field, value, message)`. -/
def NewValidationError (field value message : String) : ValidationError :=
  ⟨field, value, message⟩

/-- `errors.NewCalculationError(operation, operands, reason, err)`. -/
def NewCalculationError (operation : String) (operands : List GoFloat)
    (reason : String) (err : Option Sentinel) : CalculationError :=
  ⟨operation, operands, reason, err⟩

/-! ## internal/calculator/calculator.go -/

/-- `getRequiredOperandCount`: the number of operands required for an
operation (a minimum: `validateCalculation` compares with `<`).  The
`default` branch of the `switch` returns `2`. -/
def getRequiredOperandCount (operation : Operation) : Nat :=
  if operation = OpSquareRoot ∨ operation = OpFactorial then 1
  else if operation = OpAddition ∨ operation = OpSubtraction ∨ operation = OpMultiplication then 1
  else 2

/-- The per-operand `for i, val := range operands` loop of
`validateCalculation`: NaN check, then infinity check, then range check, in
operand order. -/
def validateOperands : Nat → List GoFloat → Option ValidationError
  | _, [] => none
  | i, .nan :: _ =>
    some (NewValidationError ("operand[" ++ toString i ++ "]") "NaN"
      "operand cannot be NaN")
  | i, .inf _ :: _ =>
    some (NewValidationError ("operand[" ++ toString i ++ "]") "Inf"
      "operand cannot be infinity")
  | i, .finite q :: rest =>
    if MaxNumberInputValue < q ∨ q < MinNumberInputValue then
      some (NewValidationError ("operand[" ++ toString i ++ "]") (toString q)
        "operand must be between -1e15 and 1e15")
    else validateOperands (i + 1) rest

/-- `validateCalculation`: non-empty operand list, operand count at least
`getRequiredOperandCount`, then the per-operand checks. -/
def validateCalculation (operation : Operation) (operands : List GoFloat) :
    Option ValidationError :=
  if operands.length = 0 then
    some (NewValidationError "operands" "none" "at least one operand is required")
  else
    let requiredOperands := getRequiredOperandCount operation
    if operands.length < requiredOperands then
      some (NewValidationError "operands" (toString operands.length)
        (operationString operation ++ " requires " ++
          toString requiredOperands ++ " operands, got " ++
          toString operands.length))
    else validateOperands 0 operands

/-- An operand that the per-operand loop of `validateCalculation` rejects:
NaN, infinite, or outside the safe numeric range. -/
def isInvalidOperand : GoFloat → Bool
  | .nan => true
  | .inf _ => true
  | .finite q => decide (MaxNumberInputValue < q ∨ q < MinNumberInputValue)

/-- `add`: left fold of `+` with identity `0`. -/
def add (operands : List GoFloat) : GoFloat :=
  operands.foldl GoFloat.fadd (.finite 0)

/-- `subtract`: first operand, minus each subsequent operand in turn. -/
def subtract (operands : List GoFloat) : GoFloat :=
  match operands with
  | [] => .finite 0
  | [x] => x
  | x :: rest => rest.foldl GoFloat.fsub x

/-- `multiply`: left fold of `*` with identity `1`. -/
def multiply (operands : List GoFloat) : GoFloat :=
  match operands with
  | [] => .finite 0
  | l => l.foldl GoFloat.fmul (.finite 1)

/-- `divide`: division-by-zero check, then the quotient, then the
`math.IsInf` overflow check. -/
def divide (a b : GoFloat) : Except CalcError GoFloat :=
  if GoFloat.feq b (.finite 0) then
    .error (.calculation (NewCalculationError "Division" [a, b]
      "division by zero" (some .divisionByZero)))
  else
    let result := GoFloat.fdiv a b
    if result.isInf then
      .error (.calculation (NewCalculationError "Division" [a, b]
        "result is infinity (overflow)" none))
    else .ok result

/-- `power`: `math.Pow(a, b)`, no domain restriction. -/
def power (a b : GoFloat) : GoFloat := GoFloat.fpow a b

/-- `squareRoot`: negativity check, then `math.Sqrt`. -/
def squareRoot (a : GoFloat) : Except CalcError GoFloat :=
  if GoFloat.flt a (.finite 0) then
    .error (.calculation (NewCalculationError "SquareRoot" [a]
      "cannot calculate square root of negative number"
      (some .negativeSquareRoot)))
  else .ok (GoFloat.fsqrt a)

/-- `modulo`: division-by-zero check, then `math.Mod`. -/
def modulo (a b : GoFloat) : Except CalcError GoFloat :=
  if GoFloat.feq b (.finite 0) then
    .error (.calculation (NewCalculationError "Modulo" [a, b]
      "division by zero in modulo operation" (some .divisionByZero)))
  else .ok (GoFloat.fmod a b)

/-- The iterative loop of `factorial`:
`result := 1.0; for i := 2.0; i <= n; i++ { result *= i }`.
`List.range' 2 (n - 1)` is exactly the sequence of loop counter values
`2, 3, …, n`. -/
def factLoop (n : Nat) : ℚ :=
  (List.range' 2 (n - 1)).foldl (fun (result : ℚ) (i : Nat) => result * (i : ℚ)) 1

/-- The natural number a `GoFloat` denotes; the guards of `factorial`
guarantee the argument reaching the loop is a finite non-negative integer,
so the non-finite fallback is unreachable. -/
def GoFloat.toNatValue : GoFloat → Nat
  | .finite q => q.num.toNat
  | _ => 0

/-- `factorial`: integrality check (`n != math.Floor(n)` — true for NaN),
negativity check, overflow check (`n > 170`), then the iterative product. -/
def factorial (n : GoFloat) : Except CalcError GoFloat :=
  if !(GoFloat.feq n (GoFloat.ffloor n)) then
    .error (.calculation (NewCalculationError "Factorial" [n]
      "factorial requires an integer" (some .invalidInput)))
  else if GoFloat.flt n (.finite 0) then
    .error (.calculation (NewCalculationError "Factorial" [n]
      "factorial of negative number is undefined" (some .invalidInput)))
  else if GoFloat.fgt n (.finite 170) then
    .error (.calculation (NewCalculationError "Factorial" [n]
      "factorial result would overflow (too large)" (some .outOfRange)))
  else
    .ok (.finite (factLoop n.toNatValue))

/-- `Calculate`: validation, then the `switch` over the operation tag.
Go's `operands[0]`/`operands[1]` indexing is embedded with `getD`; the
defaults are never reached because validation guarantees the operand count
on every dispatching branch. -/
def Calculate (operation : Operation) (operands : List GoFloat) :
    Except CalcError GoFloat :=
  match validateCalculation operation operands with
  | some e => .error (.validation e)
  | none =>
    if operation = OpAddition then .ok (add operands)
    else if operation = OpSubtraction then .ok (subtract operands)
    else if operation = OpMultiplication then .ok (multiply operands)
    else if operation = OpDivision then
      divide (operands.getD 0 .nan) (operands.getD 1 .nan)
    else if operation = OpPower then
      .ok (power (operands.getD 0 .nan) (operands.getD 1 .nan))
    else if operation = OpSquareRoot then squareRoot (operands.getD 0 .nan)
    else if operation = OpModulo then
      modulo (operands.getD 0 .nan) (operands.getD 1 .nan)
    else if operation = OpFactorial then factorial (operands.getD 0 .nan)
    else
      .error (.calculation (NewCalculationError (operationString operation)
        operands "unsupported operation" (some .invalidOperation)))

/-! ## internal/history/history.go

`time.Time` is embedded as `Nat`; `0` is the zero value (`IsZero`), and
`Before`/`After` are `<`/`>` on the embedding. -/

/-- `history.Entry`. -/
structure Entry where
  timestamp : Nat
  operation : String
  expression : String
  result : ℚ
  success : Bool
  error : String
  deriving DecidableEq

/-- `history.History` (the `Entries`, `MaxSize` and `FilePath` fields).
`MaxSize` is embedded as `Nat`: the claims under verification restrict it to
non-negative values, and a negative `MaxSize` would make the Go slice
expression `h.Entries[excess:]` panic on the first `Add`. -/
@[ext]
structure History where
  entries : List Entry
  maxSize : Nat
  filePath : String

/-- `history.NewHistory(filePath, maxSize)`. -/
def NewHistory (filePath : String) (maxSize : Nat) : History :=
  { entries := [], maxSize := maxSize, filePath := filePath }

/-- The timestamp-stamping prelude of `Add`: a zero timestamp is replaced by
the current time (`now` is the embedded `time.Now()`). -/
def stampEntry (now : Nat) (e : Entry) : Entry :=
  if e.timestamp = 0 then { e with timestamp := now } else e

/-- `History.Add`: stamp, append, and drop the oldest `excess` entries when
the bound is exceeded. -/
def History.add (h : History) (now : Nat) (entry : Entry) : History :=
  let entry := stampEntry now entry
  let entries := h.entries ++ [entry]
  if entries.length > h.maxSize then
    { h with entries := entries.drop (entries.length - h.maxSize) }
  else
    { h with entries := entries }

/-- `History.AddSuccess(operation, expression, result)`. -/
def History.addSuccess (h : History) (now : Nat)
    (operation expression : String) (result : ℚ) : History :=
  h.add now { timestamp := 0, operation := operation,
              expression := expression, result := result,
              success := true, error := "" }

/-- `History.AddError(operation, expression, err)`: a nil error (here
`none`) leaves the message empty.  Go errors are embedded by their
`Error()` message. -/
def History.addError (h : History) (now : Nat)
    (operation expression : String) (err : Option String) : History :=
  let errorMsg := match err with
    | none => ""
    | some msg => msg
  h.add now { timestamp := 0, operation := operation,
              expression := expression, result := 0,
              success := false, error := errorMsg }

/-- A sequence of `Add` calls, each with its own current time: the repeated
`History.Add` invocations of a session. -/
def History.addSeq (h : History) (items : List (Nat × Entry)) : History :=
  items.foldl (fun h p => h.add p.1 p.2) h

/-- `history.Statistics`. -/
structure Statistics where
  totalCalculations : Nat
  successfulCount : Nat
  failedCount : Nat
  mostUsedOperation : String
  averageResult : ℚ
  firstCalculation : Option Nat
  lastCalculation : Option Nat
  deriving DecidableEq

/-- The mutable locals of the entry loop in `GetStatistics` (the counters,
`totalResult`, `successfulResults`, and the first/last timestamps). -/
structure StatsAcc where
  successfulCount : Nat
  failedCount : Nat
  totalResult : ℚ
  successfulResults : Nat
  first : Option Nat
  last : Option Nat

/-- The success/failure counting and result accumulation segment of the
entry loop in `GetStatistics`. -/
def statsCount (acc : StatsAcc) (e : Entry) : StatsAcc :=
  if e.success then
    { acc with successfulCount := acc.successfulCount + 1,
               totalResult := acc.totalResult + e.result,
               successfulResults := acc.successfulResults + 1 }
  else
    { acc with failedCount := acc.failedCount + 1 }

/-- The `FirstCalculation` update segment of the entry loop
(`Timestamp.Before` is a strict comparison). -/
def statsFirst (acc : StatsAcc) (e : Entry) : StatsAcc :=
  match acc.first with
  | none => { acc with first := some e.timestamp }
  | some t =>
    if e.timestamp < t then { acc with first := some e.timestamp } else acc

/-- The `LastCalculation` update segment of the entry loop
(`Timestamp.After` is a strict comparison). -/
def statsLast (acc : StatsAcc) (e : Entry) : StatsAcc :=
  match acc.last with
  | none => { acc with last := some e.timestamp }
  | some t =>
    if t < e.timestamp then { acc with last := some e.timestamp } else acc

/-- One iteration of the entry loop in `GetStatistics`: success/failure
counting, then the first/last timestamp updates. -/
def statsStep (acc : StatsAcc) (e : Entry) : StatsAcc :=
  statsLast (statsFirst (statsCount acc e) e) e

/-- The content of the Go map `operationCounts` after the entry loop, as a
function from operation name to count: `operationCounts[entry.Operation]++`
once per entry. -/
def countOcc (entries : List Entry) (op : String) : Nat :=
  (entries.filter (fun e => e.operation == op)).length

/-- The keys of the map `operationCounts` in first-seen order.  Go does not
expose or fix any iteration order for map keys; this list is only the
canonical enumeration of the key *set*, and `GetStatistics` below takes the
actual iteration order as a parameter ranging over its permutations. -/
def opKeys (entries : List Entry) : List String :=
  entries.foldl (fun ks e => if e.operation ∈ ks then ks else ks ++ [e.operation]) []

/-- The `for op, count := range operationCounts` loop of `GetStatistics`,
iterated in the order given by `keys`, threading the `maxCount` and
`stats.MostUsedOperation` variables. -/
def mostUsedLoop (counts : String → Nat) : List String → Nat × String → Nat × String
  | [], acc => acc
  | op :: rest, (maxCount, best) =>
    if counts op > maxCount then mostUsedLoop counts rest (counts op, op)
    else mostUsedLoop counts rest (maxCount, best)

/-- `History.GetStatistics`.  The parameter `order` is the iteration order
Go's runtime chooses for the `range` over the map `operationCounts`
(deliberately randomized, hence a parameter); theorems constrain it to the
permutations of the key set `opKeys h.entries`. -/
def History.getStatistics (h : History) (order : List String) : Statistics :=
  let stats : Statistics :=
    { totalCalculations := h.entries.length,
      successfulCount := 0,
      failedCount := 0,
      mostUsedOperation := "",
      averageResult := 0,
      firstCalculation := none,
      lastCalculation := none }
  if h.entries.length = 0 then stats
  else
    let acc := h.entries.foldl statsStep
      { successfulCount := 0, failedCount := 0, totalResult := 0,
        successfulResults := 0, first := none, last := none }
    let averageResult : ℚ :=
      if acc.successfulResults > 0 then acc.totalResult / (acc.successfulResults : ℚ)
      else 0
    let mostUsed := (mostUsedLoop (countOcc h.entries) order (0, "")).2
    { stats with successfulCount := acc.successfulCount,
                 failedCount := acc.failedCount,
                 mostUsedOperation := mostUsed,
                 averageResult := averageResult,
                 firstCalculation := acc.first,
                 lastCalculation := acc.last }

/-- `History.GetRecent(n)`. -/
def History.getRecent (h : History) (n : Int) : List Entry :=
  if n ≤ 0 then []
  else if n ≥ h.entries.length then h.entries
  else h.entries.drop (h.entries.length - n.toNat)

/-- `History.Count()`. -/
def History.count (h : History) : Nat := h.entries.length

/-- `History.Clear()`. -/
def History.clear (h : History) : History := { h with entries := [] }

/-! ## Validation lemmas -/

/-- The per-operand loop accepts a list exactly when every operand is
valid. -/
theorem validateOperands_eq_none_iff (i : Nat) (l : List GoFloat) :
    validateOperands i l = none ↔ ∀ v ∈ l, isInvalidOperand v = false := by
  induction l generalizing i with
  | nil => simp [validateOperands]
  | cons v rest ih =>
    cases v with
    | nan => simp [validateOperands, isInvalidOperand]
    | inf b => simp [validateOperands, isInvalidOperand]
    | finite q =>
      simp only [validateOperands]
      by_cases h : MaxNumberInputValue < q ∨ q < MinNumberInputValue
      · rw [if_pos h]
        constructor
        · intro habs
          exact absurd habs (by simp)
        · intro hall
          exfalso
          have hq := hall (GoFloat.finite q) (List.mem_cons_self _ _)
          simp only [isInvalidOperand, decide_eq_false_iff_not] at hq
          exact hq h
      · rw [if_neg h, ih]
        push_neg at h
        constructor
        · intro hall v hvmem
          rcases List.mem_cons.mp hvmem with rfl | hmem
          · simp only [isInvalidOperand, decide_eq_false_iff_not]
            intro habs
            rcases habs with habs | habs
            · exact absurd habs (not_lt.mpr h.1)
            · exact absurd habs (not_lt.mpr h.2)
          · exact hall v hmem
        · intro hall v hv
          exact hall v (List.mem_cons_of_mem _ hv)

/-- `validateCalculation` accepts a non-empty list of valid operands that is
long enough for the operation. -/
theorem validateCalculation_eq_none (operation : Operation)
    (operands : List GoFloat) (hne : operands ≠ [])
    (hlen : getRequiredOperandCount operation ≤ operands.length)
    (hval : ∀ v ∈ operands, isInvalidOperand v = false) :
    validateCalculation operation operands = none := by
  have h0 : operands.length ≠ 0 := by
    simpa [List.length_eq_zero] using hne
  have hops : validateOperands 0 operands = none :=
    (validateOperands_eq_none_iff 0 operands).mpr hval
  simp [validateCalculation, h0, Nat.not_lt.mpr hlen, hops]

/-- C6 — For every operation and every operand list, `Calculate` fails with
a `ValidationError` — reaching no per-operation arithmetic — whenever some
operand is NaN, infinite, or outside the configured safe range of `±1e15`
(whichever validation check fires first, the result is a
`ValidationError`). -/
theorem calculate_rejects_invalid_operands (operation : Operation)
    (operands : List GoFloat)
    (hbad : ∃ v ∈ operands, isInvalidOperand v = true) :
    ∃ e, Calculate operation operands = .error (.validation e) := by
  obtain ⟨v, hv, hb⟩ := hbad
  have h0 : operands.length ≠ 0 := by
    intro h
    rw [List.length_eq_zero] at h
    subst h
    simp at hv
  by_cases hlt : operands.length < getRequiredOperandCount operation
  · refine ⟨NewValidationError "operands" (toString operands.length)
      (operationString operation ++ " requires " ++
        toString (getRequiredOperandCount operation) ++ " operands, got " ++
        toString operands.length), ?_⟩
    simp [Calculate, validateCalculation, h0, hlt]
  · have hne : validateOperands 0 operands ≠ none := by
      rw [Ne, validateOperands_eq_none_iff]
      intro hall
      have hfalse := hall v hv
      rw [hb] at hfalse
      simp at hfalse
    obtain ⟨e, he⟩ := Option.ne_none_iff_exists'.mp hne
    refine ⟨e, ?_⟩
    simp [Calculate, validateCalculation, h0, hlt, he]

/-- Witness for C6 at a concrete input: a NaN operand is rejected. -/
theorem calculate_rejects_invalid_operands_witness :
    ∃ e, Calculate OpAddition [GoFloat.nan] = .error (.validation e) :=
  calculate_rejects_invalid_operands OpAddition [GoFloat.nan]
    ⟨GoFloat.nan, by simp, by simp [isInvalidOperand]⟩

/-- Every operation requires at least one operand. -/
theorem one_le_getRequiredOperandCount (operation : Operation) :
    1 ≤ getRequiredOperandCount operation := by
  unfold getRequiredOperandCount
  split_ifs <;> norm_num

/-- A finite operand within the safe range passes the per-operand checks. -/
theorem isInvalidOperand_finite_false (q : ℚ) (h1 : q ≤ MaxNumberInputValue)
    (h2 : MinNumberInputValue ≤ q) :
    isInvalidOperand (.finite q) = false := by
  simp only [isInvalidOperand, decide_eq_false_iff_not]
  intro h
  rcases h with h | h
  · exact absurd h (not_lt.mpr h1)
  · exact absurd h (not_lt.mpr h2)

/-- Go `b == 0` on a finite float64. -/
theorem feq_finite_zero (q : ℚ) :
    GoFloat.feq (.finite q) (.finite 0) = decide (q = 0) := rfl

/-- Finite division without division-by-zero and without overflow is exact
rational division. -/
theorem fdiv_finite_ok (a b : ℚ) (hb : b ≠ 0)
    (hof : ¬ maxFloat64 < |a / b|) :
    GoFloat.fdiv (.finite a) (.finite b) = .finite (a / b) := by
  simp [GoFloat.fdiv, hb, hof]

/-- `divide` on finite operands with a non-zero, non-overflowing quotient. -/
theorem divide_finite_ok (a b : ℚ) (hb : b ≠ 0)
    (hof : ¬ maxFloat64 < |a / b|) :
    divide (.finite a) (.finite b) = .ok (.finite (a / b)) := by
  rw [divide, feq_finite_zero, if_neg (by simp [hb])]
  simp only [fdiv_finite_ok a b hb hof]
  rfl

/-- After successful validation, `Calculate` on `OpDivision` dispatches to
`divide` on the first two operands. -/
theorem Calculate_division_dispatch (operands : List GoFloat)
    (h : validateCalculation OpDivision operands = none) :
    Calculate OpDivision operands =
      divide (operands.getD 0 .nan) (operands.getD 1 .nan) := by
  have h' : validateCalculation 4 operands = none := h
  simp [Calculate, h', OpDivision, OpAddition, OpSubtraction, OpMultiplication]

/-- C2 — counterexample: `Calculate` accepts three operands for Division
(the claim states any operand count other than exactly 2 fails with a
`ValidationError`), computes `6 / 3` and ignores the third operand. -/
theorem calculate_extra_operands_counterexample :
    Calculate OpDivision [GoFloat.finite 6, GoFloat.finite 3, GoFloat.finite 100] =
      .ok (.finite 2) := by
  have hval : validateCalculation OpDivision
      [GoFloat.finite 6, GoFloat.finite 3, GoFloat.finite 100] = none := by
    apply validateCalculation_eq_none
    · simp
    · simp [getRequiredOperandCount, OpDivision, OpSquareRoot, OpFactorial,
        OpAddition, OpSubtraction, OpMultiplication]
    · intro v hv
      simp only [List.mem_cons, List.not_mem_nil, or_false] at hv
      rcases hv with rfl | rfl | rfl
      · exact isInvalidOperand_finite_false 6 (by norm_num [MaxNumberInputValue])
          (by norm_num [MinNumberInputValue])
      · exact isInvalidOperand_finite_false 3 (by norm_num [MaxNumberInputValue])
          (by norm_num [MinNumberInputValue])
      · exact isInvalidOperand_finite_false 100 (by norm_num [MaxNumberInputValue])
          (by norm_num [MinNumberInputValue])
  rw [Calculate_division_dispatch _ hval]
  have h63 : (6 : ℚ) / 3 = 2 := by norm_num
  have hdiv := divide_finite_ok 6 3 (by norm_num)
    (by rw [h63, maxFloat64]; norm_num [abs_of_pos])
  rw [h63] at hdiv
  simpa using hdiv

/-- With fewer operands than the operation's requirement, `Calculate`
fails with a `ValidationError` (either the emptiness check or the count
check). -/
theorem calculate_too_few_operands (op : Operation) (operands : List GoFloat)
    (hlt : operands.length < getRequiredOperandCount op) :
    ∃ e, Calculate op operands = .error (.validation e) := by
  by_cases h0 : operands.length = 0
  · exact ⟨NewValidationError "operands" "none"
      "at least one operand is required",
      by simp [Calculate, validateCalculation, h0]⟩
  · exact ⟨NewValidationError "operands" (toString operands.length)
      (operationString op ++ " requires " ++
        toString (getRequiredOperandCount op) ++ " operands, got " ++
        toString operands.length),
      by simp [Calculate, validateCalculation, h0, hlt]⟩

/-- C2 (amended) — `validateCalculation` enforces a *minimum* operand
count, not an exact arity: with fewer operands than
`getRequiredOperandCount` (2 for Division/Power/Modulo and unhandled tags,
1 otherwise) `Calculate` fails with a `ValidationError`; with at least that
many valid operands, validation passes (and longer lists are accepted, the
extra operands being ignored by the binary and unary operations). -/
theorem calculate_arity_validation (operation : Operation)
    (operands : List GoFloat) :
    (operands.length < getRequiredOperandCount operation →
      ∃ e, Calculate operation operands = .error (.validation e)) ∧
    (getRequiredOperandCount operation ≤ operands.length →
      (∀ v ∈ operands, isInvalidOperand v = false) →
      validateCalculation operation operands = none) := by
  constructor
  · intro hlt
    exact calculate_too_few_operands operation operands hlt
  · intro hlen hval
    have hne : operands ≠ [] := by
      intro hnil
      subst hnil
      simp only [List.length_nil, Nat.le_zero] at hlen
      have := one_le_getRequiredOperandCount operation
      omega
    exact validateCalculation_eq_none operation operands hne hlen hval

/-- Witness for C2's amended theorem at concrete inputs: Division with a
single operand is rejected, Division with two valid operands passes
validation. -/
theorem calculate_arity_validation_witness :
    (∃ e, Calculate OpDivision [GoFloat.finite 1] = .error (.validation e)) ∧
    validateCalculation OpDivision [GoFloat.finite 1, GoFloat.finite 2] = none := by
  constructor
  · exact (calculate_arity_validation OpDivision [GoFloat.finite 1]).1
      (by simp [getRequiredOperandCount, OpDivision, OpSquareRoot, OpFactorial,
        OpAddition, OpSubtraction, OpMultiplication])
  · exact (calculate_arity_validation OpDivision
      [GoFloat.finite 1, GoFloat.finite 2]).2
      (by simp [getRequiredOperandCount, OpDivision, OpSquareRoot, OpFactorial,
        OpAddition, OpSubtraction, OpMultiplication])
      (by
        intro v hv
        simp only [List.mem_cons, List.not_mem_nil, or_false] at hv
        rcases hv with rfl | rfl
        · exact isInvalidOperand_finite_false 1 (by norm_num [MaxNumberInputValue])
            (by norm_num [MinNumberInputValue])
        · exact isInvalidOperand_finite_false 2 (by norm_num [MaxNumberInputValue])
            (by norm_num [MinNumberInputValue]))

/-- No operation requires more than two operands. -/
theorem getRequiredOperandCount_le_two (operation : Operation) :
    getRequiredOperandCount operation ≤ 2 := by
  unfold getRequiredOperandCount
  split_ifs <;> norm_num

/-- Validation accepts a pair of finite in-range operands for any
operation. -/
theorem validateCalculation_two_finite (op : Operation) (a b : ℚ)
    (ha1 : MinNumberInputValue ≤ a) (ha2 : a ≤ MaxNumberInputValue)
    (hb1 : MinNumberInputValue ≤ b) (hb2 : b ≤ MaxNumberInputValue) :
    validateCalculation op [.finite a, .finite b] = none := by
  apply validateCalculation_eq_none
  · simp
  · simpa using getRequiredOperandCount_le_two op
  · intro v hv
    simp only [List.mem_cons, List.not_mem_nil, or_false] at hv
    rcases hv with rfl | rfl
    · exact isInvalidOperand_finite_false a ha2 ha1
    · exact isInvalidOperand_finite_false b hb2 hb1

/-- `divide` on a finite dividend and zero divisor: the division-by-zero
error, carrying the sentinel. -/
theorem divide_finite_zero (a : ℚ) :
    divide (.finite a) (.finite 0) =
      .error (.calculation (NewCalculationError "Division"
        [.finite a, .finite 0] "division by zero" (some .divisionByZero))) := by
  rw [divide, feq_finite_zero]
  simp

/-- `divide` on finite operands whose quotient overflows: the overflow
error, with no sentinel cause. -/
theorem divide_finite_overflow (a b : ℚ) (hb : b ≠ 0)
    (hof : maxFloat64 < |a / b|) :
    divide (.finite a) (.finite b) =
      .error (.calculation (NewCalculationError "Division"
        [.finite a, .finite b] "result is infinity (overflow)" none)) := by
  rw [divide, feq_finite_zero, if_neg (by simp [hb])]
  have hinf : GoFloat.fdiv (.finite a) (.finite b) = .inf (decide (0 < a / b)) := by
    simp [GoFloat.fdiv, hb, hof]
  simp [hinf, GoFloat.isInf]

/-- C3 — Division semantics: for valid operands, `b ≠ 0` with a finite
quotient returns `a / b` without error; a zero divisor fails with a
`CalculationError` wrapping the `DivisionByZero` sentinel; a non-zero
divisor with an infinite (overflowing) quotient fails with a
`CalculationError` carrying no sentinel cause. -/
theorem calculate_division_spec :
    (∀ a b : ℚ, MinNumberInputValue ≤ a → a ≤ MaxNumberInputValue →
      MinNumberInputValue ≤ b → b ≤ MaxNumberInputValue → b ≠ 0 →
      |a / b| ≤ maxFloat64 →
      Calculate OpDivision [.finite a, .finite b] = .ok (.finite (a / b))) ∧
    (∀ a : ℚ, MinNumberInputValue ≤ a → a ≤ MaxNumberInputValue →
      ∃ ce, Calculate OpDivision [.finite a, .finite 0] =
          .error (.calculation ce) ∧ ce.err = some .divisionByZero) ∧
    (∀ a b : ℚ, MinNumberInputValue ≤ a → a ≤ MaxNumberInputValue →
      MinNumberInputValue ≤ b → b ≤ MaxNumberInputValue → b ≠ 0 →
      maxFloat64 < |a / b| →
      ∃ ce, Calculate OpDivision [.finite a, .finite b] =
          .error (.calculation ce) ∧ ce.err = none) := by
  refine ⟨?_, ?_, ?_⟩
  · intro a b ha1 ha2 hb1 hb2 hb hof
    rw [Calculate_division_dispatch _
      (validateCalculation_two_finite OpDivision a b ha1 ha2 hb1 hb2)]
    simpa using divide_finite_ok a b hb (not_lt.mpr hof)
  · intro a ha1 ha2
    refine ⟨NewCalculationError "Division" [.finite a, .finite 0]
      "division by zero" (some .divisionByZero), ?_, rfl⟩
    rw [Calculate_division_dispatch _
      (validateCalculation_two_finite OpDivision a 0 ha1 ha2
        (by norm_num [MinNumberInputValue]) (by norm_num [MaxNumberInputValue]))]
    simpa using divide_finite_zero a
  · intro a b ha1 ha2 hb1 hb2 hb hof
    refine ⟨NewCalculationError "Division" [.finite a, .finite b]
      "result is infinity (overflow)" none, ?_, rfl⟩
    rw [Calculate_division_dispatch _
      (validateCalculation_two_finite OpDivision a b ha1 ha2 hb1 hb2)]
    simpa using divide_finite_overflow a b hb hof

/-- Witness for C3 at concrete inputs: `6 / 3` computes, `5 / 0` is a
division-by-zero error, and `1e15 / 1e-300` overflows to an error with no
sentinel. -/
theorem calculate_division_spec_witness :
    Calculate OpDivision [GoFloat.finite 6, GoFloat.finite 3] =
      .ok (.finite (6 / 3)) ∧
    (∃ ce, Calculate OpDivision [GoFloat.finite 5, GoFloat.finite 0] =
      .error (.calculation ce) ∧ ce.err = some .divisionByZero) ∧
    (∃ ce, Calculate OpDivision
        [GoFloat.finite (10 ^ 15), GoFloat.finite (1 / 10 ^ 300)] =
      .error (.calculation ce) ∧ ce.err = none) := by
  refine ⟨?_, ?_, ?_⟩
  · exact calculate_division_spec.1 6 3
      (by norm_num [MinNumberInputValue]) (by norm_num [MaxNumberInputValue])
      (by norm_num [MinNumberInputValue]) (by norm_num [MaxNumberInputValue])
      (by norm_num)
      (by
        rw [show (6 : ℚ) / 3 = 2 from by norm_num,
          abs_of_pos (show (0:ℚ) < 2 from by norm_num), maxFloat64]
        norm_num)
  · exact calculate_division_spec.2.1 5
      (by norm_num [MinNumberInputValue]) (by norm_num [MaxNumberInputValue])
  · exact calculate_division_spec.2.2 (10 ^ 15) (1 / 10 ^ 300)
      (by norm_num [MinNumberInputValue]) (by norm_num [MaxNumberInputValue])
      (by norm_num [MinNumberInputValue]) (by norm_num [MaxNumberInputValue])
      (by norm_num)
      (by
        rw [show (10 ^ 15 : ℚ) / (1 / 10 ^ 300) = 10 ^ 315 from by norm_num,
          abs_of_pos (show (0:ℚ) < 10 ^ 315 from by norm_num), maxFloat64]
        norm_num)

/-- Validation accepts any non-empty, long-enough list of finite in-range
operands. -/
theorem validateCalculation_map_finite (op : Operation) (l : List ℚ)
    (hne : l ≠ []) (hreq : getRequiredOperandCount op ≤ l.length)
    (hl : ∀ q ∈ l, MinNumberInputValue ≤ q ∧ q ≤ MaxNumberInputValue) :
    validateCalculation op (l.map .finite) = none := by
  apply validateCalculation_eq_none
  · simpa using hne
  · simpa using hreq
  · intro v hv
    simp only [List.mem_map] at hv
    obtain ⟨q, hq, rfl⟩ := hv
    exact isInvalidOperand_finite_false q (hl q hq).2 (hl q hq).1

/-- After successful validation, `Calculate` on `OpSubtraction` dispatches
to `subtract`. -/
theorem Calculate_subtraction_dispatch (operands : List GoFloat)
    (h : validateCalculation OpSubtraction operands = none) :
    Calculate OpSubtraction operands = .ok (subtract operands) := by
  have h' : validateCalculation 2 operands = none := h
  simp [Calculate, h', OpSubtraction, OpAddition]

/-- The subtraction loop on finite operands: repeated exact subtraction
equals subtracting the sum. -/
theorem foldl_fsub_finite (rest : List ℚ) (a : ℚ) :
    (rest.map GoFloat.finite).foldl GoFloat.fsub (.finite a) =
      .finite (a - rest.sum) := by
  induction rest generalizing a with
  | nil => simp
  | cons x xs ih =>
    simp only [List.map_cons, List.foldl_cons]
    rw [show GoFloat.fsub (.finite a) (.finite x) = .finite (a - x) from rfl, ih]
    simp only [List.sum_cons, GoFloat.finite.injEq]
    ring

/-- C7 — Subtraction: for every non-empty list of valid operands, the
result is the first operand minus the sum of the rest (with a single
operand, `rest = []`, the operand itself). -/
theorem calculate_subtraction_spec (a : ℚ) (rest : List ℚ)
    (ha1 : MinNumberInputValue ≤ a) (ha2 : a ≤ MaxNumberInputValue)
    (hrest : ∀ q ∈ rest, MinNumberInputValue ≤ q ∧ q ≤ MaxNumberInputValue) :
    Calculate OpSubtraction ((a :: rest).map .finite) =
      .ok (.finite (a - rest.sum)) := by
  have hval : validateCalculation OpSubtraction ((a :: rest).map .finite) = none := by
    apply validateCalculation_map_finite
    · simp
    · have hreq : getRequiredOperandCount OpSubtraction = 1 := by
        simp [getRequiredOperandCount, OpSubtraction, OpSquareRoot, OpFactorial,
          OpAddition, OpMultiplication]
      rw [hreq]
      simp only [List.length_cons]
      omega
    · intro q hq
      rcases List.mem_cons.mp hq with rfl | hq
      · exact ⟨ha1, ha2⟩
      · exact hrest q hq
  rw [Calculate_subtraction_dispatch _ hval]
  cases rest with
  | nil => simp [subtract]
  | cons x xs =>
    have h := foldl_fsub_finite (x :: xs) a
    simp only [List.map_cons] at h ⊢
    simp [subtract, h]

/-- Witness for C7 at a concrete input: `10 - 3 - 4 = 3`, and the sum of
the rest is `7`. -/
theorem calculate_subtraction_spec_witness :
    Calculate OpSubtraction (([10, 3, 4] : List ℚ).map .finite) =
      .ok (.finite (10 - ([3, 4] : List ℚ).sum)) := by
  exact calculate_subtraction_spec 10 [3, 4]
    (by norm_num [MinNumberInputValue]) (by norm_num [MaxNumberInputValue])
    (by
      intro q hq
      simp only [List.mem_cons, List.not_mem_nil, or_false] at hq
      rcases hq with rfl | rfl
      · exact ⟨by norm_num [MinNumberInputValue], by norm_num [MaxNumberInputValue]⟩
      · exact ⟨by norm_num [MinNumberInputValue], by norm_num [MaxNumberInputValue]⟩)

/-- Validation accepts a single finite in-range operand whenever one
operand suffices. -/
theorem validateCalculation_one_finite (op : Operation) (a : ℚ)
    (hreq : getRequiredOperandCount op = 1)
    (ha1 : MinNumberInputValue ≤ a) (ha2 : a ≤ MaxNumberInputValue) :
    validateCalculation op [.finite a] = none := by
  apply validateCalculation_eq_none
  · simp
  · simp [hreq]
  · intro v hv
    simp only [List.mem_cons, List.not_mem_nil, or_false] at hv
    subst hv
    exact isInvalidOperand_finite_false a ha2 ha1

/-- `OpFactorial` requires a single operand. -/
theorem getRequiredOperandCount_factorial :
    getRequiredOperandCount OpFactorial = 1 := by
  simp [getRequiredOperandCount, OpFactorial, OpSquareRoot]

/-- After successful validation, `Calculate` on `OpFactorial` dispatches to
`factorial` on the first operand. -/
theorem Calculate_factorial_dispatch (operands : List GoFloat)
    (h : validateCalculation OpFactorial operands = none) :
    Calculate OpFactorial operands = factorial (operands.getD 0 .nan) := by
  have h' : validateCalculation 8 operands = none := h
  simp [Calculate, h', OpFactorial, OpAddition, OpSubtraction,
    OpMultiplication, OpDivision, OpPower, OpSquareRoot, OpModulo]

/-- The integrality test of `factorial` on a finite operand. -/
theorem feq_ffloor_finite (q : ℚ) :
    GoFloat.feq (.finite q) (GoFloat.ffloor (.finite q)) = decide (q = (⌊q⌋ : ℚ)) := rfl

/-- `factorial` on a non-integral finite operand: the integrality error. -/
theorem factorial_not_integer (q : ℚ) (h : q ≠ (⌊q⌋ : ℚ)) :
    factorial (.finite q) = .error (.calculation (NewCalculationError
      "Factorial" [.finite q] "factorial requires an integer"
      (some .invalidInput))) := by
  unfold factorial
  rw [feq_ffloor_finite, decide_eq_false h]
  simp

/-- `factorial` on a negative integral operand: the negativity error. -/
theorem factorial_negative (q : ℚ) (hint : q = (⌊q⌋ : ℚ)) (hneg : q < 0) :
    factorial (.finite q) = .error (.calculation (NewCalculationError
      "Factorial" [.finite q] "factorial of negative number is undefined"
      (some .invalidInput))) := by
  unfold factorial
  rw [feq_ffloor_finite, decide_eq_true hint,
    show GoFloat.flt (.finite q) (.finite 0) = decide (q < 0) from rfl,
    decide_eq_true hneg]
  simp

/-- `factorial` on an integral operand above 170: the overflow error. -/
theorem factorial_overflow (q : ℚ) (hint : q = (⌊q⌋ : ℚ)) (hgt : 170 < q) :
    factorial (.finite q) = .error (.calculation (NewCalculationError
      "Factorial" [.finite q] "factorial result would overflow (too large)"
      (some .outOfRange))) := by
  unfold factorial
  rw [feq_ffloor_finite, decide_eq_true hint,
    show GoFloat.flt (.finite q) (.finite 0) = decide (q < 0) from rfl,
    decide_eq_false (show ¬ q < 0 by linarith),
    show GoFloat.fgt (.finite q) (.finite 170) = decide ((170 : ℚ) < q) from rfl,
    decide_eq_true hgt]
  simp

/-- The iterative loop of `factorial` computes the factorial. -/
theorem factLoop_eq_factorial (n : ℕ) :
    factLoop n = (Nat.factorial n : ℚ) := by
  induction n with
  | zero => simp [factLoop, Nat.factorial]
  | succ k ih =>
    cases k with
    | zero => simp [factLoop, Nat.factorial]
    | succ j =>
      have hrange : List.range' 2 (j + 1) = List.range' 2 j ++ [2 + j] :=
        List.range'_1_concat 2 j
      have hstep : factLoop (j + 2) = factLoop (j + 1) * ((2 + j : ℕ) : ℚ) := by
        rw [factLoop, factLoop, show j + 2 - 1 = j + 1 from rfl,
          show j + 1 - 1 = j from rfl, hrange, List.foldl_append]
        simp
      rw [show j + 1 + 1 = j + 2 from rfl, hstep, ih]
      rw [show (j + 2 : ℕ).factorial = (j + 2) * (j + 1).factorial from
        Nat.factorial_succ (j + 1)]
      push_cast
      ring

/-- `factorial` on a natural-number operand within the bound: the exact
factorial. -/
theorem factorial_nat_value (m : ℕ) (hm : m ≤ 170) :
    factorial (.finite (m : ℚ)) = .ok (.finite (Nat.factorial m)) := by
  unfold factorial
  rw [feq_ffloor_finite, decide_eq_true (show (m : ℚ) = (⌊(m : ℚ)⌋ : ℚ) by simp),
    show GoFloat.flt (.finite (m : ℚ)) (.finite 0) = decide ((m : ℚ) < 0) from rfl,
    decide_eq_false (not_lt.mpr (Nat.cast_nonneg m)),
    show GoFloat.fgt (.finite (m : ℚ)) (.finite 170) = decide ((170 : ℚ) < (m : ℚ)) from rfl,
    decide_eq_false (show ¬ (170 : ℚ) < (m : ℚ) by exact_mod_cast not_lt.mpr hm)]
  have htn : (GoFloat.finite (m : ℚ)).toNatValue = m := by
    simp [GoFloat.toNatValue]
  simp [htn, factLoop_eq_factorial]

/-- C4 — Factorial: for a valid single operand, a non-integral or negative
value fails with `CalculationError(InvalidInput)`, an integral value above
170 fails with `CalculationError(OutOfRange)`, and an integral value in
`[0, 170]` returns the iterative product over `2..n` (the factorial), with
`0! = 1`, `5! = 120`, `10! = 3628800`. -/
theorem calculate_factorial_spec :
    (∀ q : ℚ, MinNumberInputValue ≤ q → q ≤ MaxNumberInputValue →
      (q ≠ (⌊q⌋ : ℚ) ∨ q < 0) →
      ∃ ce, Calculate OpFactorial [.finite q] = .error (.calculation ce) ∧
        ce.err = some .invalidInput) ∧
    (∀ q : ℚ, q ≤ MaxNumberInputValue → q = (⌊q⌋ : ℚ) → 170 < q →
      ∃ ce, Calculate OpFactorial [.finite q] = .error (.calculation ce) ∧
        ce.err = some .outOfRange) ∧
    (∀ m : ℕ, m ≤ 170 →
      Calculate OpFactorial [.finite (m : ℚ)] = .ok (.finite (Nat.factorial m))) ∧
    Calculate OpFactorial [.finite 0] = .ok (.finite 1) ∧
    Calculate OpFactorial [.finite 5] = .ok (.finite 120) ∧
    Calculate OpFactorial [.finite 10] = .ok (.finite 3628800) := by
  have hnat : ∀ m : ℕ, m ≤ 170 →
      Calculate OpFactorial [.finite (m : ℚ)] = .ok (.finite (Nat.factorial m)) := by
    intro m hm
    have hval : validateCalculation OpFactorial [.finite (m : ℚ)] = none := by
      apply validateCalculation_one_finite _ _ getRequiredOperandCount_factorial
      · have : (0 : ℚ) ≤ (m : ℚ) := by positivity
        norm_num [MinNumberInputValue]
        linarith
      · have : (m : ℚ) ≤ 170 := by exact_mod_cast hm
        norm_num [MaxNumberInputValue]
        linarith
    rw [Calculate_factorial_dispatch _ hval]
    simpa using factorial_nat_value m hm
  refine ⟨?_, ?_, hnat, ?_, ?_, ?_⟩
  · intro q h1 h2 hbad
    have hval := validateCalculation_one_finite OpFactorial q
      getRequiredOperandCount_factorial h1 h2
    rw [Calculate_factorial_dispatch _ hval]
    by_cases hint : q = (⌊q⌋ : ℚ)
    · rcases hbad with hbad | hbad
      · exact absurd hint hbad
      · exact ⟨_, by simpa using factorial_negative q hint hbad, rfl⟩
    · exact ⟨_, by simpa using factorial_not_integer q hint, rfl⟩
  · intro q h2 hint hgt
    have h1 : MinNumberInputValue ≤ q := by
      norm_num [MinNumberInputValue]
      linarith
    have hval := validateCalculation_one_finite OpFactorial q
      getRequiredOperandCount_factorial h1 h2
    rw [Calculate_factorial_dispatch _ hval]
    exact ⟨_, by simpa using factorial_overflow q hint hgt, rfl⟩
  · have h := hnat 0 (by norm_num)
    simpa [Nat.factorial] using h
  · have h := hnat 5 (by norm_num)
    rw [show ((5 : ℕ) : ℚ) = (5 : ℚ) from by norm_num] at h
    rw [h]
    norm_num [Nat.factorial]
  · have h := hnat 10 (by norm_num)
    rw [show ((10 : ℕ) : ℚ) = (10 : ℚ) from by norm_num] at h
    rw [h]
    norm_num [Nat.factorial]

/-- Witness for C4 at concrete inputs: `3.5` and `-5` are `InvalidInput`,
`171` is `OutOfRange`, and `5! = 120`. -/
theorem calculate_factorial_spec_witness :
    (∃ ce, Calculate OpFactorial [.finite (7 / 2)] = .error (.calculation ce) ∧
      ce.err = some .invalidInput) ∧
    (∃ ce, Calculate OpFactorial [.finite (-5)] = .error (.calculation ce) ∧
      ce.err = some .invalidInput) ∧
    (∃ ce, Calculate OpFactorial [.finite 171] = .error (.calculation ce) ∧
      ce.err = some .outOfRange) ∧
    Calculate OpFactorial [.finite ((5 : ℕ) : ℚ)] = .ok (.finite (Nat.factorial 5)) := by
  refine ⟨?_, ?_, ?_, ?_⟩
  · exact calculate_factorial_spec.1 (7 / 2)
      (by norm_num [MinNumberInputValue]) (by norm_num [MaxNumberInputValue])
      (Or.inl (by norm_num))
  · exact calculate_factorial_spec.1 (-5)
      (by norm_num [MinNumberInputValue]) (by norm_num [MaxNumberInputValue])
      (Or.inr (by norm_num))
  · exact calculate_factorial_spec.2.1 171
      (by norm_num [MaxNumberInputValue]) (by norm_num) (by norm_num)
  · exact calculate_factorial_spec.2.2.1 5 (by norm_num)

/-- Classifier: is the result a `CalculationError` wrapping the given
sentinel cause? -/
def isCalculationErrorWith (r : Except CalcError GoFloat) (s : Sentinel) : Bool :=
  match r with
  | .error (.calculation ce) => ce.err == some s
  | _ => false

/-- Classifier: is the result a `ValidationError`? -/
def isValidationErrorResult : Except CalcError GoFloat → Bool
  | .error (.validation _) => true
  | _ => false

/-- An unhandled operation tag falls into the `default` branch of
`getRequiredOperandCount` and requires two operands. -/
theorem getRequiredOperandCount_default (op : Nat)
    (hop : op = OpUnknown ∨ 8 < op) :
    getRequiredOperandCount op = 2 := by
  have hop' : op = 0 ∨ 8 < op := hop
  have h1 : ¬(op = OpSquareRoot ∨ op = OpFactorial) := by
    simp only [OpSquareRoot, OpFactorial]
    omega
  have h2 : ¬(op = OpAddition ∨ op = OpSubtraction ∨ op = OpMultiplication) := by
    simp only [OpAddition, OpSubtraction, OpMultiplication]
    omega
  simp [getRequiredOperandCount, h1, h2]

/-- After successful validation, an unhandled operation tag falls into the
`default` branch of `Calculate`'s `switch`. -/
theorem Calculate_default_dispatch (op : Nat) (operands : List GoFloat)
    (h : validateCalculation op operands = none)
    (hop : op = OpUnknown ∨ 8 < op) :
    Calculate op operands = .error (.calculation (NewCalculationError
      (operationString op) operands "unsupported operation"
      (some .invalidOperation))) := by
  have hop' : op = 0 ∨ 8 < op := hop
  have h1 : ¬ op = OpAddition := by simp only [OpAddition]; omega
  have h2 : ¬ op = OpSubtraction := by simp only [OpSubtraction]; omega
  have h3 : ¬ op = OpMultiplication := by simp only [OpMultiplication]; omega
  have h4 : ¬ op = OpDivision := by simp only [OpDivision]; omega
  have h5 : ¬ op = OpPower := by simp only [OpPower]; omega
  have h6 : ¬ op = OpSquareRoot := by simp only [OpSquareRoot]; omega
  have h7 : ¬ op = OpModulo := by simp only [OpModulo]; omega
  have h8 : ¬ op = OpFactorial := by simp only [OpFactorial]; omega
  simp [Calculate, h, h1, h2, h3, h4, h5, h6, h7, h8]

/-- C8 — counterexample: `Calculate(Unknown, [5])` is a non-empty list of
valid operands, yet the call does *not* fail with
`CalculationError(InvalidOperation)` — the operand-count check fires first
(the `default` requirement is 2) and returns a `ValidationError`. -/
theorem calculate_unknown_counterexample :
    isCalculationErrorWith (Calculate OpUnknown [GoFloat.finite 5])
      Sentinel.invalidOperation = false ∧
    isValidationErrorResult (Calculate OpUnknown [GoFloat.finite 5]) = true := by
  obtain ⟨e, he⟩ := calculate_too_few_operands OpUnknown [GoFloat.finite 5]
    (by rw [getRequiredOperandCount_default OpUnknown (Or.inl rfl)]; simp)
  rw [he]
  exact ⟨rfl, rfl⟩

/-- C8 (amended) — `Calculate` on the Unknown tag, or any tag outside the
eight supported operations, fails with `CalculationError(InvalidOperation)`
for every list of **at least two** valid operands; with a single operand
the call instead fails with a `ValidationError`, because the `default`
operand-count requirement (2) is checked first. -/
theorem calculate_unknown_invalid_operation :
    (∀ (op : Nat) (operands : List GoFloat),
      (op = OpUnknown ∨ 8 < op) → 2 ≤ operands.length →
      (∀ v ∈ operands, isInvalidOperand v = false) →
      Calculate op operands = .error (.calculation (NewCalculationError
        (operationString op) operands "unsupported operation"
        (some .invalidOperation)))) ∧
    (∀ (op : Nat) (v : GoFloat), (op = OpUnknown ∨ 8 < op) →
      ∃ e, Calculate op [v] = .error (.validation e)) := by
  constructor
  · intro op operands hop hlen hval
    have hvc : validateCalculation op operands = none := by
      apply validateCalculation_eq_none
      · intro hnil
        subst hnil
        simp at hlen
      · rw [getRequiredOperandCount_default op hop]
        exact hlen
      · exact hval
    exact Calculate_default_dispatch op operands hvc hop
  · intro op v hop
    apply calculate_too_few_operands
    rw [getRequiredOperandCount_default op hop]
    simp

/-- Witness for C8's amended theorem at concrete inputs: tag 99 with two
valid operands is `InvalidOperation`; tag 99 with one operand is a
`ValidationError`. -/
theorem calculate_unknown_invalid_operation_witness :
    Calculate 99 [GoFloat.finite 1, GoFloat.finite 2] =
      .error (.calculation (NewCalculationError (operationString 99)
        [GoFloat.finite 1, GoFloat.finite 2] "unsupported operation"
        (some .invalidOperation))) ∧
    (∃ e, Calculate 99 [GoFloat.finite 1] = .error (.validation e)) := by
  constructor
  · exact calculate_unknown_invalid_operation.1 99
      [GoFloat.finite 1, GoFloat.finite 2]
      (Or.inr (by norm_num)) (by simp)
      (by
        intro v hv
        simp only [List.mem_cons, List.not_mem_nil, or_false] at hv
        rcases hv with rfl | rfl
        · exact isInvalidOperand_finite_false 1 (by norm_num [MaxNumberInputValue])
            (by norm_num [MinNumberInputValue])
        · exact isInvalidOperand_finite_false 2 (by norm_num [MaxNumberInputValue])
            (by norm_num [MinNumberInputValue]))
  · exact calculate_unknown_invalid_operation.2 99 (GoFloat.finite 1)
      (Or.inr (by norm_num))

/-! ## History lemmas -/

/-- The last `m` entries of a list, in order: what FIFO eviction keeps. -/
def lastN (m : Nat) (l : List Entry) : List Entry := l.drop (l.length - m)

/-- `lastN` keeps `min (length, m)` entries. -/
theorem length_lastN (m : Nat) (l : List Entry) :
    (lastN m l).length = min l.length m := by
  simp only [lastN, List.length_drop]
  omega

/-- One `Add` call: the new entry list is the last `maxSize` entries of the
old list with the stamped entry appended; the bound and path are
untouched. -/
theorem History.add_entries (h : History) (now : Nat) (e : Entry) :
    (h.add now e).entries = lastN h.maxSize (h.entries ++ [stampEntry now e]) ∧
    (h.add now e).maxSize = h.maxSize ∧
    (h.add now e).filePath = h.filePath := by
  by_cases hgt : h.maxSize < h.entries.length + 1
  · refine ⟨?_, ?_, ?_⟩ <;> simp [History.add, lastN, hgt]
  · have h0 : h.entries.length + 1 - h.maxSize = 0 := by omega
    refine ⟨?_, ?_, ?_⟩ <;> simp [History.add, lastN, hgt, h0]

/-- Trimming to the last `m` entries, appending one entry and trimming
again is the same as appending and trimming once. -/
theorem lastN_append_one (m : Nat) (l : List Entry) (x : Entry) :
    lastN m (lastN m l ++ [x]) = lastN m (l ++ [x]) := by
  unfold lastN
  rcases le_or_lt m l.length with hm | hm
  · -- m ≤ length: the trimmed list has length m
    have hlen : (l.drop (l.length - m)).length = m := by
      simp only [List.length_drop]
      omega
    rcases Nat.eq_zero_or_pos m with hm0 | hm0
    · subst hm0
      have h1 : l.drop (l.length - 0) = [] := by
        rw [List.drop_eq_nil_iff]
        omega
      rw [h1]
      have h2 : (([] : List Entry) ++ [x]).length - 0 = 1 := by simp
      have h3 : (l ++ [x]).length - 0 = l.length + 1 := by simp
      rw [h2, h3]
      simp
    · have hidx : (l.drop (l.length - m) ++ [x]).length - m = 1 := by
        simp only [List.length_append, hlen, List.length_cons, List.length_nil]
        omega
      rw [hidx, List.drop_append_eq_append_drop, List.drop_drop]
      have hidx2 : (l ++ [x]).length - m = l.length + 1 - m := by simp
      rw [hidx2, List.drop_append_eq_append_drop]
      have e1 : l.length - m + 1 = l.length + 1 - m := by omega
      have e2 : 1 - (l.drop (l.length - m)).length = 0 := by
        rw [hlen]; omega
      have e3 : l.length + 1 - m - l.length = 0 := by omega
      rw [e1, e2, e3, List.drop_zero]
  · -- m > length: nothing is dropped on either side
    have h1 : l.length - m = 0 := by omega
    rw [h1, List.drop_zero]

/-- A run of `Add` calls starting from a trimmed list produces the trimmed
concatenation: the FIFO invariant, generalized for induction. -/
theorem History.addSeq_entries (m : Nat) (f : String) :
    ∀ (items : List (Nat × Entry)) (L : List Entry),
      (History.addSeq ⟨lastN m L, m, f⟩ items).entries =
        lastN m (L ++ items.map (fun p => stampEntry p.1 p.2)) := by
  intro items
  induction items with
  | nil =>
    intro L
    simp [History.addSeq]
  | cons p rest ih =>
    intro L
    obtain ⟨hE, hM, hF⟩ := History.add_entries ⟨lastN m L, m, f⟩ p.1 p.2
    have hstruct : History.add ⟨lastN m L, m, f⟩ p.1 p.2 =
        ⟨lastN m (L ++ [stampEntry p.1 p.2]), m, f⟩ := by
      ext1
      · rw [hE]
        exact lastN_append_one m L (stampEntry p.1 p.2)
      · exact hM
      · exact hF
    rw [show History.addSeq ⟨lastN m L, m, f⟩ (p :: rest) =
        History.addSeq (History.add ⟨lastN m L, m, f⟩ p.1 p.2) rest from rfl,
      hstruct, ih (L ++ [stampEntry p.1 p.2])]
    simp

/-- C1 — History FIFO bound: starting from `NewHistory` with any
`MaxSize ≥ 0` (sizes are naturals here; a negative Go `MaxSize` would make
`Add` panic on the slice expression), after any sequence of `Add` calls the
stored entries are exactly the most-recently-added `min (total, MaxSize)`
entries — stamped on entry — in insertion order, so their number never
exceeds `MaxSize`.  Quantifying over all sequences covers the state after
each individual `Add` of a longer session. -/
theorem history_add_fifo_bound (maxSize : Nat) (filePath : String)
    (items : List (Nat × Entry)) :
    ((NewHistory filePath maxSize).addSeq items).entries =
      lastN maxSize (items.map (fun p => stampEntry p.1 p.2)) ∧
    ((NewHistory filePath maxSize).addSeq items).entries.length =
      min items.length maxSize ∧
    ((NewHistory filePath maxSize).addSeq items).entries.length ≤ maxSize := by
  have h0 : NewHistory filePath maxSize =
      ⟨lastN maxSize [], maxSize, filePath⟩ := by
    simp [NewHistory, lastN]
  rw [h0, History.addSeq_entries]
  refine ⟨by simp, ?_, ?_⟩
  · rw [show ([] : List Entry) ++ items.map (fun p => stampEntry p.1 p.2) =
      items.map (fun p => stampEntry p.1 p.2) from List.nil_append _]
    rw [length_lastN, List.length_map]
  · rw [length_lastN]
    omega

/-- C10 — `AddError` always performs an `Add` of a failed entry: success
flag `false`, result `0`, error message taken from the error, and the empty
string when the error is nil — the entry is stamped and appended (then
FIFO-trimmed), never skipped. -/
theorem addError_appends_failed_entry (h : History) (now : Nat)
    (operation expression : String) (err : Option String) :
    (h.addError now operation expression err).entries =
      lastN h.maxSize (h.entries ++
        [⟨now, operation, expression, 0, false,
          match err with | none => "" | some msg => msg⟩]) ∧
    (h.addError now operation expression none).entries =
      lastN h.maxSize (h.entries ++
        [⟨now, operation, expression, 0, false, ""⟩]) := by
  have hs : ∀ msg : String,
      stampEntry now ⟨0, operation, expression, 0, false, msg⟩ =
        ⟨now, operation, expression, 0, false, msg⟩ := by
    intro msg
    simp [stampEntry]
  constructor
  · have h1 := (History.add_entries h now
      ⟨0, operation, expression, 0, false,
        match err with | none => "" | some msg => msg⟩).1
    rw [hs] at h1
    exact h1
  · have h1 := (History.add_entries h now
      ⟨0, operation, expression, 0, false, ""⟩).1
    rw [hs] at h1
    exact h1

/-- The timestamp updates leave the counters untouched. -/
theorem statsFirst_counters (acc : StatsAcc) (e : Entry) :
    (statsFirst acc e).successfulCount = acc.successfulCount ∧
    (statsFirst acc e).failedCount = acc.failedCount ∧
    (statsFirst acc e).totalResult = acc.totalResult ∧
    (statsFirst acc e).successfulResults = acc.successfulResults := by
  unfold statsFirst
  split
  · exact ⟨rfl, rfl, rfl, rfl⟩
  · split
    · exact ⟨rfl, rfl, rfl, rfl⟩
    · exact ⟨rfl, rfl, rfl, rfl⟩

/-- The timestamp updates leave the counters untouched. -/
theorem statsLast_counters (acc : StatsAcc) (e : Entry) :
    (statsLast acc e).successfulCount = acc.successfulCount ∧
    (statsLast acc e).failedCount = acc.failedCount ∧
    (statsLast acc e).totalResult = acc.totalResult ∧
    (statsLast acc e).successfulResults = acc.successfulResults := by
  unfold statsLast
  split
  · exact ⟨rfl, rfl, rfl, rfl⟩
  · split
    · exact ⟨rfl, rfl, rfl, rfl⟩
    · exact ⟨rfl, rfl, rfl, rfl⟩

/-- The counting segment, by success flag. -/
theorem statsCount_fields (acc : StatsAcc) (e : Entry) :
    (statsCount acc e).successfulCount =
      acc.successfulCount + (if e.success then 1 else 0) ∧
    (statsCount acc e).failedCount =
      acc.failedCount + (if e.success then 0 else 1) ∧
    (statsCount acc e).totalResult =
      acc.totalResult + (if e.success then e.result else 0) ∧
    (statsCount acc e).successfulResults =
      acc.successfulResults + (if e.success then 1 else 0) := by
  unfold statsCount
  cases he : e.success <;> simp [he]

/-- The counters after one full loop iteration. -/
theorem statsStep_counters (acc : StatsAcc) (e : Entry) :
    (statsStep acc e).successfulCount =
      acc.successfulCount + (if e.success then 1 else 0) ∧
    (statsStep acc e).failedCount =
      acc.failedCount + (if e.success then 0 else 1) ∧
    (statsStep acc e).totalResult =
      acc.totalResult + (if e.success then e.result else 0) ∧
    (statsStep acc e).successfulResults =
      acc.successfulResults + (if e.success then 1 else 0) := by
  obtain ⟨c1, c2, c3, c4⟩ := statsCount_fields acc e
  obtain ⟨f1, f2, f3, f4⟩ := statsFirst_counters (statsCount acc e) e
  obtain ⟨g1, g2, g3, g4⟩ := statsLast_counters (statsFirst (statsCount acc e) e) e
  exact ⟨by rw [statsStep, g1, f1, c1], by rw [statsStep, g2, f2, c2],
    by rw [statsStep, g3, f3, c3], by rw [statsStep, g4, f4, c4]⟩

/-- The entry loop of `GetStatistics` counts successes and failures and
sums the successful results. -/
theorem statsFold_counters (l : List Entry) (acc : StatsAcc) :
    (l.foldl statsStep acc).successfulCount =
      acc.successfulCount + (l.filter (fun e => e.success)).length ∧
    (l.foldl statsStep acc).failedCount =
      acc.failedCount + (l.filter (fun e => !e.success)).length ∧
    (l.foldl statsStep acc).totalResult =
      acc.totalResult + ((l.filter (fun e => e.success)).map Entry.result).sum ∧
    (l.foldl statsStep acc).successfulResults =
      acc.successfulResults + (l.filter (fun e => e.success)).length := by
  induction l generalizing acc with
  | nil => simp
  | cons e rest ih =>
    obtain ⟨i1, i2, i3, i4⟩ := ih (statsStep acc e)
    obtain ⟨s1, s2, s3, s4⟩ := statsStep_counters acc e
    rw [List.foldl_cons]
    refine ⟨?_, ?_, ?_, ?_⟩
    · rw [i1, s1]
      cases he : e.success <;> simp [he]
      all_goals omega
    · rw [i2, s2]
      cases he : e.success <;> simp [he]
      all_goals omega
    · rw [i3, s3]
      cases he : e.success <;> simp [he]
      all_goals ring
    · rw [i4, s4]
      cases he : e.success <;> simp [he]
      all_goals omega

/-- `GetStatistics` on a non-empty history, field by field: the counts and
the mean come from the entry loop, `MostUsedOperation` from the map loop in
the given iteration order. -/
theorem getStatistics_fields (h : History) (order : List String)
    (hne : h.entries.length ≠ 0) :
    (h.getStatistics order).totalCalculations = h.entries.length ∧
    (h.getStatistics order).successfulCount =
      (h.entries.filter (fun e => e.success)).length ∧
    (h.getStatistics order).failedCount =
      (h.entries.filter (fun e => !e.success)).length ∧
    (h.getStatistics order).averageResult =
      (if (h.entries.filter (fun e => e.success)).length = 0 then 0
       else ((h.entries.filter (fun e => e.success)).map Entry.result).sum /
         (((h.entries.filter (fun e => e.success)).length : ℚ))) ∧
    (h.getStatistics order).mostUsedOperation =
      (mostUsedLoop (countOcc h.entries) order (0, "")).2 := by
  obtain ⟨a1, a2, a3, a4⟩ :=
    statsFold_counters h.entries ⟨0, 0, 0, 0, none, none⟩
  simp only [zero_add] at a1 a2 a3 a4
  refine ⟨?_, ?_, ?_, ?_, ?_⟩
  · unfold History.getStatistics
    rw [if_neg hne]
  · unfold History.getStatistics
    rw [if_neg hne]
    show (h.entries.foldl statsStep ⟨0, 0, 0, 0, none, none⟩).successfulCount = _
    exact a1
  · unfold History.getStatistics
    rw [if_neg hne]
    show (h.entries.foldl statsStep ⟨0, 0, 0, 0, none, none⟩).failedCount = _
    exact a2
  · unfold History.getStatistics
    rw [if_neg hne]
    show (if (h.entries.foldl statsStep ⟨0, 0, 0, 0, none, none⟩).successfulResults > 0
        then (h.entries.foldl statsStep ⟨0, 0, 0, 0, none, none⟩).totalResult /
          (((h.entries.foldl statsStep ⟨0, 0, 0, 0, none, none⟩).successfulResults : Nat) : ℚ)
        else 0) = _
    rw [a3, a4]
    rcases Nat.eq_zero_or_pos (h.entries.filter (fun e => e.success)).length
      with h0 | h0
    · simp [h0]
    · rw [if_pos h0, if_neg (by omega)]
  · unfold History.getStatistics
    rw [if_neg hne]

/-- The spec's example history: three successes with results 2, 4, 6, and
one failure. -/
def statsHistory : History :=
  ⟨[⟨1, "Addition", "1 + 1", 2, true, ""⟩,
    ⟨2, "Addition", "2 + 2", 4, true, ""⟩,
    ⟨3, "Addition", "3 + 3", 6, true, ""⟩,
    ⟨4, "Division", "1 / 0", 0, false, "division by zero"⟩], 10, ""⟩

/-- C9 — `GetStatistics` counts: on an empty history all counts are zero,
the average is zero and both timestamps are nil; in general the total is
the entry count, the success/failure counts partition the entries by their
success flag, and the average is the mean of the successful results alone;
on the spec's example history (successes 2, 4, 6 and one failure) this
gives total 4, successful 3, failed 1, average 4. -/
theorem getStatistics_counts_spec :
    (∀ (m : Nat) (f : String) (order : List String),
      (History.mk [] m f).getStatistics order = ⟨0, 0, 0, "", 0, none, none⟩) ∧
    (∀ (h : History) (order : List String),
      (h.getStatistics order).totalCalculations = h.entries.length ∧
      (h.getStatistics order).successfulCount =
        (h.entries.filter (fun e => e.success)).length ∧
      (h.getStatistics order).failedCount =
        (h.entries.filter (fun e => !e.success)).length ∧
      (h.getStatistics order).averageResult =
        (if (h.entries.filter (fun e => e.success)).length = 0 then 0
         else ((h.entries.filter (fun e => e.success)).map Entry.result).sum /
           (((h.entries.filter (fun e => e.success)).length : ℚ)))) ∧
    ((statsHistory.getStatistics []).totalCalculations = 4 ∧
      (statsHistory.getStatistics []).successfulCount = 3 ∧
      (statsHistory.getStatistics []).failedCount = 1 ∧
      (statsHistory.getStatistics []).averageResult = 4) := by
  have hgen : ∀ (h : History) (order : List String),
      (h.getStatistics order).totalCalculations = h.entries.length ∧
      (h.getStatistics order).successfulCount =
        (h.entries.filter (fun e => e.success)).length ∧
      (h.getStatistics order).failedCount =
        (h.entries.filter (fun e => !e.success)).length ∧
      (h.getStatistics order).averageResult =
        (if (h.entries.filter (fun e => e.success)).length = 0 then 0
         else ((h.entries.filter (fun e => e.success)).map Entry.result).sum /
           (((h.entries.filter (fun e => e.success)).length : ℚ))) := by
    intro h order
    by_cases hne : h.entries.length = 0
    · have hnil : h.entries = [] := List.length_eq_zero.mp hne
      unfold History.getStatistics
      rw [if_pos hne]
      simp [hnil]
    · obtain ⟨b1, b2, b3, b4, _⟩ := getStatistics_fields h order hne
      exact ⟨b1, b2, b3, b4⟩
  refine ⟨?_, hgen, ?_⟩
  · intro m f order
    unfold History.getStatistics
    rw [if_pos (by simp)]
    rfl
  · obtain ⟨b1, b2, b3, b4⟩ := hgen statsHistory []
    have hflt : statsHistory.entries.filter (fun e => e.success) =
        [⟨1, "Addition", "1 + 1", 2, true, ""⟩,
         ⟨2, "Addition", "2 + 2", 4, true, ""⟩,
         ⟨3, "Addition", "3 + 3", 6, true, ""⟩] := by
      simp [statsHistory]
    have hflf : statsHistory.entries.filter (fun e => !e.success) =
        [⟨4, "Division", "1 / 0", 0, false, "division by zero"⟩] := by
      simp [statsHistory]
    refine ⟨?_, ?_, ?_, ?_⟩
    · rw [b1]; simp [statsHistory]
    · rw [b2, hflt]; rfl
    · rw [b3, hflf]; rfl
    · rw [b4, hflt]
      norm_num [Entry.result]

/-! ## The most-used-operation loop -/

/-- The running maximum of the map loop never decreases. -/
theorem mostUsedLoop_fst_ge_init (counts : String → Nat) (keys : List String)
    (mc : Nat) (best : String) :
    mc ≤ (mostUsedLoop counts keys (mc, best)).1 := by
  induction keys generalizing mc best with
  | nil => simp [mostUsedLoop]
  | cons k rest ih =>
    rw [mostUsedLoop]
    by_cases hk : counts k > mc
    · rw [if_pos hk]
      exact le_trans (le_of_lt hk) (ih (counts k) k)
    · rw [if_neg hk]
      exact ih mc best

/-- After the map loop, the running maximum dominates the count of every
key it visited. -/
theorem mostUsedLoop_fst_ge (counts : String → Nat) (keys : List String)
    (mc : Nat) (best : String) :
    ∀ k ∈ keys, counts k ≤ (mostUsedLoop counts keys (mc, best)).1 := by
  induction keys generalizing mc best with
  | nil => simp
  | cons k rest ih =>
    intro k0 hk0
    rw [mostUsedLoop]
    rcases List.mem_cons.mp hk0 with rfl | hmem
    · by_cases hk : counts k0 > mc
      · rw [if_pos hk]
        exact mostUsedLoop_fst_ge_init counts rest (counts k0) k0
      · rw [if_neg hk]
        exact le_trans (not_lt.mp hk) (mostUsedLoop_fst_ge_init counts rest mc best)
    · by_cases hk : counts k > mc
      · rw [if_pos hk]
        exact ih (counts k) k k0 hmem
      · rw [if_neg hk]
        exact ih mc best k0 hmem

/-- The map loop either never updates its accumulator, or ends on a visited
key whose count is the running maximum. -/
theorem mostUsedLoop_result (counts : String → Nat) (keys : List String)
    (mc : Nat) (best : String) :
    mostUsedLoop counts keys (mc, best) = (mc, best) ∨
    ((mostUsedLoop counts keys (mc, best)).1 =
        counts (mostUsedLoop counts keys (mc, best)).2 ∧
      (mostUsedLoop counts keys (mc, best)).2 ∈ keys) := by
  induction keys generalizing mc best with
  | nil => exact Or.inl rfl
  | cons k rest ih =>
    rw [mostUsedLoop]
    by_cases hk : counts k > mc
    · rw [if_pos hk]
      rcases ih (counts k) k with hres | ⟨h1, h2⟩
      · right
        rw [hres]
        exact ⟨rfl, List.mem_cons_self _ _⟩
      · exact Or.inr ⟨h1, List.mem_cons_of_mem _ h2⟩
    · rw [if_neg hk]
      rcases ih mc best with hres | ⟨h1, h2⟩
      · exact Or.inl hres
      · exact Or.inr ⟨h1, List.mem_cons_of_mem _ h2⟩

/-! ## The key set of the operation-count map -/

/-- Membership in the folded key accumulator. -/
theorem mem_opKeys_aux (l : List Entry) :
    ∀ (ks : List String) (a : String),
      (a ∈ l.foldl
        (fun ks e => if e.operation ∈ ks then ks else ks ++ [e.operation]) ks) ↔
        (a ∈ ks ∨ ∃ e ∈ l, e.operation = a) := by
  induction l with
  | nil =>
    intro ks a
    simp
  | cons e rest ih =>
    intro ks a
    rw [List.foldl_cons]
    by_cases hmem : e.operation ∈ ks
    · rw [if_pos hmem, ih]
      constructor
      · rintro (h | ⟨e1, he1, ha⟩)
        · exact Or.inl h
        · exact Or.inr ⟨e1, List.mem_cons_of_mem _ he1, ha⟩
      · rintro (h | ⟨e1, he1, ha⟩)
        · exact Or.inl h
        · rcases List.mem_cons.mp he1 with rfl | hr
          · exact Or.inl (ha ▸ hmem)
          · exact Or.inr ⟨e1, hr, ha⟩
    · rw [if_neg hmem, ih]
      constructor
      · rintro (h | ⟨e1, he1, ha⟩)
        · rcases List.mem_append.mp h with h | h
          · exact Or.inl h
          · exact Or.inr ⟨e, List.mem_cons_self _ _,
              (List.mem_singleton.mp h).symm⟩
        · exact Or.inr ⟨e1, List.mem_cons_of_mem _ he1, ha⟩
      · rintro (h | ⟨e1, he1, ha⟩)
        · exact Or.inl (List.mem_append.mpr (Or.inl h))
        · rcases List.mem_cons.mp he1 with rfl | hr
          · exact Or.inl (List.mem_append.mpr
              (Or.inr (List.mem_singleton.mpr ha.symm)))
          · exact Or.inr ⟨e1, hr, ha⟩

/-- The key set of `operationCounts` contains exactly the operations
appearing in the entries. -/
theorem mem_opKeys (l : List Entry) (a : String) :
    a ∈ opKeys l ↔ ∃ e ∈ l, e.operation = a := by
  rw [opKeys, mem_opKeys_aux]
  simp

/-- Every key of the map was counted at least once. -/
theorem countOcc_pos_of_mem_opKeys (l : List Entry) (a : String)
    (ha : a ∈ opKeys l) : 0 < countOcc l a := by
  obtain ⟨e, he, ha1⟩ := (mem_opKeys l a).mp ha
  rw [countOcc]
  have hmem : e ∈ l.filter (fun e => e.operation == a) := by
    rw [List.mem_filter]
    exact ⟨he, by simp [ha1]⟩
  exact List.length_pos.mpr (List.ne_nil_of_mem hmem)

/-- A name that is not a key of the map has count zero. -/
theorem countOcc_eq_zero_of_not_mem (l : List Entry) (a : String)
    (ha : a ∉ opKeys l) : countOcc l a = 0 := by
  rw [countOcc, List.length_eq_zero, List.filter_eq_nil_iff]
  intro e he
  simp only [beq_iff_eq]
  intro hco
  exact ha ((mem_opKeys l a).mpr ⟨e, he, hco⟩)

/-- A history whose two entries use two different operations exactly once
each: a tie for the most-used operation. -/
def tieHistory : History :=
  ⟨[⟨1, "Addition", "1 + 1", 2, true, ""⟩,
    ⟨2, "Division", "4 / 2", 2, true, ""⟩], 10, ""⟩

/-- C5 — counterexample: on a tied history the value of
`MostUsedOperation` depends on the iteration order of the map
`operationCounts`.  Go randomizes that order, so the first-seen tie-break
claimed by the spec is not what the code computes: under the first-seen
order the result is `"Addition"`, but under the equally possible reversed
order — a permutation of the same key set — it is `"Division"`, not the
first-seen operation. -/
theorem getStatistics_tie_counterexample :
    List.Perm ["Division", "Addition"] (opKeys tieHistory.entries) ∧
    (tieHistory.getStatistics (opKeys tieHistory.entries)).mostUsedOperation =
      "Addition" ∧
    (tieHistory.getStatistics ["Division", "Addition"]).mostUsedOperation =
      "Division" := by
  have hkeys : opKeys tieHistory.entries = ["Addition", "Division"] := by
    simp [opKeys, tieHistory]
  have hne : tieHistory.entries.length ≠ 0 := by simp [tieHistory]
  have hcA : countOcc tieHistory.entries "Addition" = 1 := by
    simp [countOcc, tieHistory]
  have hcD : countOcc tieHistory.entries "Division" = 1 := by
    simp [countOcc, tieHistory]
  refine ⟨by rw [hkeys]; decide, ?_, ?_⟩
  · rw [(getStatistics_fields tieHistory (opKeys tieHistory.entries) hne).2.2.2.2,
      hkeys]
    rw [mostUsedLoop, if_pos (by rw [hcA]; norm_num)]
    rw [hcA, mostUsedLoop, if_neg (by rw [hcD]; norm_num)]
    rfl
  · rw [(getStatistics_fields tieHistory ["Division", "Addition"] hne).2.2.2.2]
    rw [mostUsedLoop, if_pos (by rw [hcD]; norm_num)]
    rw [hcD, mostUsedLoop, if_neg (by rw [hcA]; norm_num)]
    rfl

/-- C5 (amended) — for a non-empty history and *any* iteration order of the
key set of `operationCounts` (Go fixes no order), `MostUsedOperation` is an
operation that appears in the entries and attains the maximal occurrence
count; on ties the winner depends on the iteration order, so the spec's
deterministic first-seen tie-break does not hold. -/
theorem mostUsed_attains_max (h : History) (order : List String)
    (hne : h.entries ≠ []) (hperm : List.Perm order (opKeys h.entries)) :
    (h.getStatistics order).mostUsedOperation ∈ opKeys h.entries ∧
    ∀ op : String, countOcc h.entries op ≤
      countOcc h.entries ((h.getStatistics order).mostUsedOperation) := by
  have hlen : h.entries.length ≠ 0 := by
    simpa [List.length_eq_zero] using hne
  have hmu := (getStatistics_fields h order hlen).2.2.2.2
  have hordne : order ≠ [] := by
    intro ho
    rw [ho] at hperm
    have hkeysnil : opKeys h.entries = [] := (List.Perm.nil_eq hperm).symm
    cases hE : h.entries with
    | nil => exact hne hE
    | cons e rest =>
      have : e.operation ∈ opKeys h.entries :=
        (mem_opKeys _ _).mpr ⟨e, by rw [hE]; exact List.mem_cons_self _ _, rfl⟩
      rw [hkeysnil] at this
      simp at this
  rcases mostUsedLoop_result (countOcc h.entries) order 0 "" with hres | ⟨h1, h2⟩
  · exfalso
    obtain ⟨k, hk⟩ := List.exists_mem_of_ne_nil order hordne
    have hle := mostUsedLoop_fst_ge (countOcc h.entries) order 0 "" k hk
    have hpos := countOcc_pos_of_mem_opKeys h.entries k (hperm.mem_iff.mp hk)
    rw [hres] at hle
    omega
  · constructor
    · rw [hmu]
      exact hperm.mem_iff.mp h2
    · intro op
      rw [hmu]
      by_cases hop : op ∈ opKeys h.entries
      · have hod : op ∈ order := hperm.mem_iff.mpr hop
        have hle := mostUsedLoop_fst_ge (countOcc h.entries) order 0 "" op hod
        rw [h1] at hle
        exact hle
      · rw [countOcc_eq_zero_of_not_mem h.entries op hop]
        exact Nat.zero_le _

/-- Witness for C5's amended theorem at a concrete input: on `tieHistory`
with the first-seen iteration order, the returned operation is a key of the
map and its count dominates the count of `"Division"`. -/
theorem mostUsed_attains_max_witness :
    ((tieHistory.getStatistics (opKeys tieHistory.entries)).mostUsedOperation ∈
      opKeys tieHistory.entries) ∧
    countOcc tieHistory.entries "Division" ≤
      countOcc tieHistory.entries
        ((tieHistory.getStatistics (opKeys tieHistory.entries)).mostUsedOperation) := by
  have h := mostUsed_attains_max tieHistory (opKeys tieHistory.entries)
    (by simp [tieHistory]) (List.Perm.refl _)
  exact ⟨h.1, h.2 "Division"⟩

end CliCalc

